import Mathlib

set_option maxRecDepth 4000

/-!
Shallow embedding of `src/main.py` of the low-bandwidth-news aggregator.

Conventions of the embedding:
* Python strings are Lean `String`s; Python slicing `s[:n]` (which operates on
  code points) is `pyTake`, built on `List Char`.
* `datetime` values are civil UTC timestamps (`DateTime` record); every
  datetime the program constructs carries `tzinfo=UTC`, so `astimezone(UTC)`
  is the identity and is not represented.
* The ambient clock `datetime.now(UTC)` is passed in explicitly as a `now`
  argument.
* Fallible external collaborators (feedparser retrieval, trafilatura, the
  summarization API) are passed in as explicit `Except`/sum values standing
  for "returned normally" versus "raised"; a `try/except` block in the
  Python source becomes a `match` on that value.
* Python regex `\d`/`\s` are modelled on their ASCII fragments, which is the
  range exercised by feed data and by all concrete inputs used below.
-/

/-- Characters treated as whitespace by the `\s` class and `str.strip`
(ASCII fragment). -/
def isPySpace (c : Char) : Bool :=
  c = ' ' || c = '\t' || c = '\n' || c = '\r' || c = '\x0b' || c = '\x0c'

/-- Python `s[:n]` on a string: first `n` code points. -/
def pyTake (s : String) (n : Nat) : String :=
  String.mk (s.toList.take n)

/-- Python `str.strip()` on a list of characters. -/
def pyStripList (cs : List Char) : List Char :=
  ((cs.dropWhile isPySpace).reverse.dropWhile isPySpace).reverse

/-- Python `str.strip()`. -/
def pyStrip (s : String) : String :=
  String.mk (pyStripList s.toList)

/-- Python `str.lower()` (ASCII fragment). -/
def pyLower (s : String) : String :=
  String.mk (s.toList.map Char.toLower)

/-- One left-to-right pass of `re.sub(r'<[^>]+>', '', text)`.
The second argument is `none` when scanning outside a candidate tag and
`some pending` (reversed pending characters) after an unclosed `<`.
A `<` that is never closed, or is immediately followed by `>`, matches
nothing and is emitted literally, exactly as the regex engine does. -/
def stripTagsAux : List Char → Option (List Char) → List Char
  | [], none => []
  | [], some pend => '<' :: pend.reverse
  | c :: rest, none =>
    if c = '<' then stripTagsAux rest (some [])
    else c :: stripTagsAux rest none
  | c :: rest, some pend =>
    if c = '>' then
      if pend.isEmpty then '<' :: '>' :: stripTagsAux rest none
      else stripTagsAux rest none
    else stripTagsAux rest (some (c :: pend))

/-- `re.sub(r'\s+', ' ', text)`: collapse whitespace runs to a single
space.  The boolean flag records whether the previous character was
whitespace. -/
def collapseWsAux : List Char → Bool → List Char
  | [], _ => []
  | c :: rest, prev =>
    if isPySpace c then
      if prev then collapseWsAux rest true
      else ' ' :: collapseWsAux rest true
    else c :: collapseWsAux rest false

/-- `text.replace('\n', ' ').replace('\r', ' ')`, character map. -/
def replaceNlCr (c : Char) : Char :=
  if c = '\n' || c = '\r' then ' ' else c

/-- `clean_html` from `main.py`: strip HTML tags, replace newlines with
spaces, collapse whitespace, strip. -/
def clean_html (text : String) : String :=
  if text = "" then ""
  else
    String.mk (pyStripList (collapseWsAux ((stripTagsAux text.toList none).map replaceNlCr) false))

/-- A civil timestamp, understood as UTC (the program normalizes every
`datetime` it builds to `tzinfo=UTC`). -/
structure DateTime where
  year : Nat
  month : Nat
  day : Nat
  hour : Nat
  minute : Nat
  second : Nat
deriving DecidableEq, Repr

/-- `datetime.min` (with `tzinfo=UTC`): year 1, January 1, midnight. -/
def dtMin : DateTime := ⟨1, 1, 1, 0, 0, 0⟩

/-- Python `datetime` comparison: lexicographic on
(year, month, day, hour, minute, second). -/
def dtLe (a b : DateTime) : Bool :=
  if a.year ≠ b.year then decide (a.year < b.year)
  else if a.month ≠ b.month then decide (a.month < b.month)
  else if a.day ≠ b.day then decide (a.day < b.day)
  else if a.hour ≠ b.hour then decide (a.hour < b.hour)
  else if a.minute ≠ b.minute then decide (a.minute < b.minute)
  else decide (a.second ≤ b.second)

/-- `datetime.date()` of a UTC timestamp: the UTC calendar date. -/
def dateTriple (t : DateTime) : Nat × Nat × Nat :=
  (t.year, t.month, t.day)

/-- Gregorian leap-year rule (used by `datetime`'s constructor validation). -/
def isLeapYear (y : Nat) : Bool :=
  (y % 4 = 0 && decide (y % 100 ≠ 0)) || y % 400 = 0

/-- Number of days in a month of a given year. -/
def daysInMonth (y m : Nat) : Nat :=
  if m = 2 then (if isLeapYear y then 29 else 28)
  else if m = 4 || m = 6 || m = 9 || m = 11 then 30
  else 31

/-- Whether `datetime(*fields, tzinfo=UTC)` succeeds: field ranges accepted
by the `datetime` constructor. -/
def dtValid (t : DateTime) : Bool :=
  decide (1 ≤ t.year) && decide (t.year ≤ 9999) &&
  decide (1 ≤ t.month) && decide (t.month ≤ 12) &&
  decide (1 ≤ t.day) && decide (t.day ≤ daysInMonth t.year t.month) &&
  decide (t.hour ≤ 23) && decide (t.minute ≤ 59) && decide (t.second ≤ 59)

/-- A feedparser entry author: a dict with an optional `name`. -/
structure Author where
  name : Option String
deriving DecidableEq, Repr

/-- A feedparser entry, with the optional attributes `main.py` reads
(`getattr(entry, field, default)` is `Option.getD`).  The three
`*_parsed` time structs are carried as already-converted optional civil
timestamps; `dtValid` models the `datetime(...)` constructor check. -/
structure Entry where
  title : Option String
  link : Option String
  summary : Option String
  description : Option String
  authors : List Author
  published : Option DateTime
  updated : Option DateTime
  created : Option DateTime
deriving DecidableEq, Repr

/-- A feedparser result. -/
structure Feed where
  bozo : Bool
  entries : List Entry
deriving DecidableEq, Repr

/-- One aggregator item (the article dict built by the fetchers).
`summary` is absent until `generate_summaries` assigns it. -/
structure Article where
  category : String
  source : String
  title : String
  link : String
  raw_content : String
  pub_date : Option DateTime
  summary : Option String
deriving DecidableEq, Repr

/-- First present-and-constructible timestamp among a list of candidates
(`parse_pub_date` tries fields in order, skipping ones whose
`datetime(...)` call raises). -/
def firstValidDate : List (Option DateTime) → Option DateTime
  | [] => none
  | none :: rest => firstValidDate rest
  | some t :: rest => if dtValid t then some t else firstValidDate rest

/-- `parse_pub_date` from `main.py`: first of `published_parsed`,
`updated_parsed`, `created_parsed` that yields a constructible datetime. -/
def parse_pub_date (e : Entry) : Option DateTime :=
  firstValidDate [e.published, e.updated, e.created]

/-- `is_today` from `main.py`, with the ambient clock made explicit:
true iff the date is present and its UTC calendar date equals `now`'s. -/
def is_today (pub : Option DateTime) (now : DateTime) : Bool :=
  match pub with
  | none => false
  | some t => decide (dateTriple t = dateTriple now)

/-- Zero-padded two-digit field (strftime `%m`, `%d`, `%H`, `%M`). -/
def pad2 (n : Nat) : String :=
  if n < 10 then "0" ++ toString n else toString n

/-- Zero-padded four-digit year (strftime `%Y`). -/
def pad4 (n : Nat) : String :=
  if n < 10 then "000" ++ toString n
  else if n < 100 then "00" ++ toString n
  else if n < 1000 then "0" ++ toString n
  else toString n

/-- `format_pub_date` from `main.py`: `MM-DD-YYYY / HH:MM UTC`, or `N/A`
when absent. -/
def format_pub_date (pub : Option DateTime) : String :=
  match pub with
  | none => "N/A"
  | some t =>
    pad2 t.month ++ "-" ++ pad2 t.day ++ "-" ++ pad4 t.year ++ " / " ++
    pad2 t.hour ++ ":" ++ pad2 t.minute ++ " UTC"

/-- strftime `%Y-%m-%d` of a timestamp's UTC calendar date. -/
def fmtYMD (t : DateTime) : String :=
  pad4 t.year ++ "-" ++ pad2 t.month ++ "-" ++ pad2 t.day

example : clean_html "a <b>bold</b>  move\nok" = "a bold move ok" := by decide
example : clean_html "<a<b> x <>" = "x <>" := by decide

/-! ### Feed fetchers (`fetch_rss`, `fetch_atom`, `fetch_podcast`, `fetch_scrape`) -/

/-- Outcome of `fetch_feed_content(url)` as seen by a fetcher: either a
parsed `Feed` or a raised exception (carried as its message).  The
SSL-fallback retry inside `fetch_feed_content` does not change this
surface: it still returns a feed or lets an exception escape. -/
def FeedResult : Type := Except String Feed

/-- `fetch_rss` from `main.py`.  `res` is the outcome of the feed
retrieval; an exception is caught by the `except` block and yields `[]`. -/
def fetch_rss (res : Except String Feed) (url category source_name : String)
    (max_items : Nat) (fetch_all : Bool) (now : DateTime) : List Article :=
  match res with
  | .error _ => []
  | .ok feed =>
    if feed.bozo && feed.entries.isEmpty then []
    else
      let entries := if fetch_all then feed.entries else feed.entries.take max_items
      entries.filterMap (fun entry =>
        let pub_date := parse_pub_date entry
        if !fetch_all && !is_today pub_date now then none
        else some
          { category := category
            source := source_name
            title := entry.title.getD "No Title"
            link := entry.link.getD url
            raw_content := pyTake (clean_html (entry.summary.getD "")) 500
            pub_date := pub_date
            summary := none })

/-- `', '.join([a.get('name', '') for a in getattr(entry, 'authors', [])])`. -/
def joinAuthors (authors : List Author) : String :=
  String.intercalate ", " (authors.map (fun a => a.name.getD ""))

/-- `fetch_atom` from `main.py`: like rss but the comma-joined author
names are prepended (after the 500-character truncation of the summary)
whenever the joined string is non-empty. -/
def fetch_atom (res : Except String Feed) (url category source_name : String)
    (max_items : Nat) (fetch_all : Bool) (now : DateTime) : List Article :=
  match res with
  | .error _ => []
  | .ok feed =>
    let entries := if fetch_all then feed.entries else feed.entries.take max_items
    entries.filterMap (fun entry =>
      let pub_date := parse_pub_date entry
      if !fetch_all && !is_today pub_date now then none
      else
        let authors := joinAuthors entry.authors
        let summ := pyTake (clean_html (entry.summary.getD "")) 500
        let raw := if authors ≠ "" then "Authors: " ++ authors ++ ". " ++ summ else summ
        some
          { category := category
            source := source_name
            title := entry.title.getD "No Title"
            link := entry.link.getD ""
            raw_content := raw
            pub_date := pub_date
            summary := none })

/-- `fetch_podcast` from `main.py`: like rss but the content falls back
from `summary` to `description`, and the link default is `''`. -/
def fetch_podcast (res : Except String Feed) (url category source_name : String)
    (max_items : Nat) (fetch_all : Bool) (now : DateTime) : List Article :=
  match res with
  | .error _ => []
  | .ok feed =>
    let entries := if fetch_all then feed.entries else feed.entries.take max_items
    entries.filterMap (fun entry =>
      let pub_date := parse_pub_date entry
      if !fetch_all && !is_today pub_date now then none
      else some
        { category := category
          source := source_name
          title := entry.title.getD "No Title"
          link := entry.link.getD ""
          raw_content := pyTake (clean_html (entry.summary.getD (entry.description.getD ""))) 500
          pub_date := pub_date
          summary := none })

/-- `fetch_scrape` from `main.py`.  The collaborator outcome is:
exception (`error`), `trafilatura.fetch_url` returned `None` (`ok none`),
extraction returned `None` (`ok (some none)`), or extracted text
(`ok (some (some text))`).  Scraped items are stamped with the fetch
instant `now`. -/
def fetch_scrape (res : Except String (Option (Option String)))
    (url category source_name : String) (now : DateTime) : List Article :=
  match res with
  | .error _ => []
  | .ok none => []
  | .ok (some none) => []
  | .ok (some (some text)) =>
    [{ category := category
       source := source_name
       title := source_name ++ " - Latest"
       link := url
       raw_content := pyTake text 800
       pub_date := some now
       summary := none }]

/-- The ambient collaborator outcomes available to one source: the feed
retrieval channel and the page-scrape channel (only one is consulted,
depending on the declared feed type). -/
structure SourceEnv where
  feedRes : Except String Feed
  pageRes : Except String (Option (Option String))

/-- One configuration row of `feeds.csv`. -/
structure SourceCfg where
  url : String
  category : String
  source_name : String
  feed_type : String

/-- `fetch_content` from `main.py`: normalize the feed type
(`(feed_type or 'rss').lower().strip()`) and route to the fetcher. -/
def fetch_content (env : SourceEnv) (cfg : SourceCfg)
    (fetch_all : Bool) (now : DateTime) : List Article :=
  let ft := pyStrip (pyLower (if cfg.feed_type = "" then "rss" else cfg.feed_type))
  if ft = "atom" then
    fetch_atom env.feedRes cfg.url cfg.category cfg.source_name 50 fetch_all now
  else if ft = "podcast" then
    fetch_podcast env.feedRes cfg.url cfg.category cfg.source_name 50 fetch_all now
  else if ft = "scrape" then
    fetch_scrape env.pageRes cfg.url cfg.category cfg.source_name now
  else
    fetch_rss env.feedRes cfg.url cfg.category cfg.source_name 50 fetch_all now

/-- The fetch loop of `main()`: each configured source is fetched in turn
and the per-source article lists are concatenated into `all_articles`. -/
def processSources (srcs : List (SourceCfg × SourceEnv))
    (fetch_all : Bool) (now : DateTime) : List Article :=
  srcs.flatMap (fun s => fetch_content s.2 s.1 fetch_all now)

/-! ### Summarization batcher (`generate_summaries`) -/

/-- The regex class `[\.\)\s]` of the tolerant line pattern. -/
def isSepChar (c : Char) : Bool :=
  c = '.' || c = ')' || isPySpace c

/-- `int(...)` on a digit string. -/
def digitsToNat (ds : List Char) : Nat :=
  ds.foldl (fun n c => n * 10 + (c.toNat - 48)) 0

/-- `re.match(r'^(\d+)[\.\)\s]+(.+)$', line)` on a (stripped) line:
leading digits, then a maximal run of separator characters, then the
rest.  When the separators run to the end of the line the engine gives
one separator back so that `(.+)` still matches one character; when only
a single separator exists there is nothing to give back and the match
fails. -/
def parseNumberedLine (cs : List Char) : Option (Nat × List Char) :=
  let ds := cs.takeWhile Char.isDigit
  let r0 := cs.dropWhile Char.isDigit
  let sp := r0.takeWhile isSepChar
  let rest := r0.dropWhile isSepChar
  if ds.isEmpty then none
  else if sp.isEmpty then none
  else if rest.isEmpty then
    if 2 ≤ sp.length then some (digitsToNat ds, sp.drop (sp.length - 1))
    else none
  else some (digitsToNat ds, rest)

/-- Python `s.split('\n')`: split at every newline, keeping empty
pieces. -/
def splitLines : List Char → List (List Char)
  | [] => [[]]
  | c :: rest =>
    if c = '\n' then [] :: splitLines rest
    else
      match splitLines rest with
      | l :: ls => (c :: l) :: ls
      | [] => [[c]]

/-- The response-parsing loop of `generate_summaries`: strip the
response, split on newlines, strip each line, skip empty lines, and
record `num ↦ stripped summary` for each matching line.  Later lines
overwrite earlier ones (dict assignment), modelled by prepending so that
`List.lookup` finds the most recent binding. -/
def parseSummaries (response_text : String) : List (Nat × String) :=
  ((splitLines (pyStrip response_text).toList).map String.mk).foldl
    (fun acc line =>
      let l := pyStrip line
      if l = "" then acc
      else
        match parseNumberedLine l.toList with
        | none => acc
        | some (n, txt) => (n, pyStrip (String.mk txt)) :: acc)
    []

/-- One of the two outcomes that the body of `generate_summaries`
handles: the response text successfully extracted from `message`, or a
caught `anthropic.APIError`.  The third possible outcome of the `try`
block — the `IndexError` that `message.content[0]` raises when the
returned `content` list is empty, which the `except anthropic.APIError`
clause does not catch — is not an `ApiResult`; it is modelled by
`generate_summaries_call` below. -/
inductive ApiResult where
  | ok (response_text : String) : ApiResult
  | apiError (msg : String) : ApiResult
deriving Repr

/-- The handled part of `generate_summaries` from `main.py`, as a
function of the batch and the handled outcome: on an extracted response
text each article at 0-based position `i` receives the parsed summary
for index `i+1`, with the sentinel `"Summary unavailable"` when that
index is absent; on a caught `APIError` every article in the batch
receives the sentinel `"Error generating summary"`. -/
def generate_summaries (articles : List Article) (api : ApiResult) : List Article :=
  if articles.isEmpty then []
  else
    match api with
    | .ok response_text =>
      let summaries := parseSummaries response_text
      articles.enum.map (fun p =>
        { p.2 with summary := some ((summaries.lookup (p.1 + 1)).getD "Summary unavailable") })
    | .apiError _ =>
      articles.map (fun a => { a with summary := some "Error generating summary" })

/-- Outcome of the `client.messages.create` call itself: either the call
raises an `anthropic.APIError` (the base class of the SDK's connection,
timeout and status errors), or it returns a `message` whose `content`
is a list of blocks, each carrying a `text` (carried here as the list of
the blocks' texts). -/
inductive ApiCallResult where
  | message (content : List String) : ApiCallResult
  | apiError (msg : String) : ApiCallResult
deriving Repr

/-- `generate_summaries` from `main.py` with the response-text
extraction modelled faithfully.  `response_text = message.content[0].text`
sits inside the `try` block, and indexing an empty `content` list raises
an `IndexError`; the `except anthropic.APIError` clause does not match
it, so that exception escapes the batcher uncaught (`.error`).  A caught
`APIError` and a non-empty `content` list fall through to the two
handled behaviours of `generate_summaries`. -/
def generate_summaries_call (articles : List Article) (call : ApiCallResult) :
    Except String (List Article) :=
  if articles.isEmpty then .ok []
  else
    match call with
    | .apiError msg => .ok (generate_summaries articles (.apiError msg))
    | .message [] => .error "IndexError: list index out of range"
    | .message (response_text :: _) => .ok (generate_summaries articles (.ok response_text))

/-! ### Markdown escaping, date bucketing, rendering -/

/-- Python `text.replace(pat, rep)` for a single-character pattern:
replace every occurrence of the character, left to right. -/
def pyReplaceChar (pat : Char) (rep : List Char) : List Char → List Char
  | [] => []
  | c :: rest =>
    if c = pat then rep ++ pyReplaceChar pat rep rest
    else c :: pyReplaceChar pat rep rest

/-- `escape_markdown` from `main.py`: `text.replace('|', '\\|')`. -/
def escape_markdown (text : String) : String :=
  String.mk (pyReplaceChar '|' ['\\', '|'] text.toList)

/-- Reference form of pipe escaping: each `|` becomes `\|`, every other
character is kept. -/
def escPipe (cs : List Char) : List Char :=
  cs.flatMap (fun c => if c = '|' then ['\\', '|'] else [c])

/-- The grouping key of `group_articles_by_date`: the `YYYY-MM-DD` UTC
calendar date, or `"unknown"` for an absent timestamp. -/
def dateKey (a : Article) : String :=
  match a.pub_date with
  | some t => fmtYMD t
  | none => "unknown"

/-- `defaultdict(list)` insertion: append the article to its key's list,
keeping keys in first-insertion order. -/
def addToGroup : List (String × List Article) → String → Article → List (String × List Article)
  | [], k, a => [(k, [a])]
  | (k', l) :: rest, k, a =>
    if k' = k then (k', l ++ [a]) :: rest
    else (k', l) :: addToGroup rest k a

/-- `group_articles_by_date` from `main.py`. -/
def group_articles_by_date (articles : List Article) : List (String × List Article) :=
  articles.foldl (fun g a => addToGroup g (dateKey a) a) []

/-- Stable insertion of `a` into `l`: `a` goes before the first element
`b` with `le a b`, hence before later-input elements with an equal key. -/
def stableInsert (le : α → α → Bool) (a : α) : List α → List α
  | [] => [a]
  | b :: l => if le a b then a :: b :: l else b :: stableInsert le a l

/-- A stable sort (insertion sort).  Python's `list.sort` is stable, and
a stable sort's output is determined by the comparison alone, so this is
observationally the same sort. -/
def stableSort (le : α → α → Bool) : List α → List α
  | [] => []
  | a :: l => stableInsert le a (stableSort le l)

/-- The sort key of `write_briefing`:
`x.get('pub_date') or datetime.min.replace(tzinfo=UTC)`. -/
def sortKey (a : Article) : DateTime :=
  a.pub_date.getD dtMin

/-- `articles.sort(key=..., reverse=True)`: a stable sort, newest first,
equal keys keeping their input order.  `a` may precede `b` exactly when
`key b <= key a`. -/
def sortArticles (articles : List Article) : List Article :=
  stableSort (fun a b => dtLe (sortKey b) (sortKey a)) articles

/-- One table row of the briefing. -/
def formatRow (a : Article) : String :=
  let pub_date_str := format_pub_date a.pub_date
  let category := escape_markdown a.category
  let source := escape_markdown a.source
  let title := escape_markdown (if a.title.length > 60 then pyTake a.title 60 ++ "..." else a.title)
  let summ := escape_markdown (a.summary.getD "N/A")
  "| " ++ pub_date_str ++ " | " ++ category ++ " | " ++ source ++ " | " ++
    title ++ " | " ++ summ ++ " | [Link](" ++ a.link ++ ") |"

/-- The document text written by `write_briefing` for an already-sorted
list of articles. -/
def briefingDoc (sorted : List Article) (date_str : String) (now : DateTime) : String :=
  let table_lines :=
    "| Date/Time | Category | Source | Title | Summary | Link |" ::
    "|-----------|----------|--------|-------|---------|------|" ::
    sorted.map formatRow
  "# 🗞️ Daily Briefing: " ++ date_str ++ "\n\n" ++
  "*Generated at " ++ pad2 now.hour ++ ":" ++ pad2 now.minute ++ " UTC*\n\n" ++
  "**Total Articles:** " ++ toString sorted.length ++ "\n\n" ++
  "---\n\n" ++
  String.intercalate "\n" table_lines ++ "\n"

/-- `write_briefing` from `main.py`.  `articles.sort(...)` mutates the
caller's list in place, so the function's observable result is the pair
(document written to `<date_str>.md`, final state of the caller's list). -/
def write_briefing (articles : List Article) (date_str : String) (now : DateTime) :
    String × List Article :=
  let sorted := sortArticles articles
  (briefingDoc sorted date_str now, sorted)

/-- Python string `<`: lexicographic comparison of code points. -/
def strLt : List Char → List Char → Bool
  | [], [] => false
  | [], _ :: _ => true
  | _ :: _, [] => false
  | a :: as, b :: bs =>
    if a < b then true
    else if b < a then false
    else strLt as bs

/-- The `--fetch-all` output phase of `main()`: group by date, iterate the
keys newest-first, skip the `"unknown"` key, and write one briefing per
remaining key.  Each emitted element is
(date key, document text, final state of that bucket's list). -/
def writeAllBriefings (articles : List Article) (now : DateTime) :
    List (String × String × List Article) :=
  let grouped := group_articles_by_date articles
  let sorted_dates := stableSort (fun a b => !strLt a.toList b.toList) (grouped.map Prod.fst)
  sorted_dates.filterMap (fun date_str =>
    if date_str = "unknown" then none
    else
      match grouped.lookup date_str with
      | some arts => some (date_str, write_briefing arts date_str now)
      | none => none)

/-! ### Predicates and concrete inputs used by the verification -/

/-- No item with an absent `pub_date` appears before an item with a
present `pub_date`: once a `none`-dated item occurs, everything after it
is `none`-dated too. -/
def noneLastOk (l : List Article) : Prop :=
  l.Pairwise (fun a b => a.pub_date = none → b.pub_date = none)

/-- A concrete timestamp (2024-01-01 12:30:00 UTC). -/
def cDt : DateTime := ⟨2024, 1, 1, 12, 30, 0⟩

/-- A concrete clock instant (2024-01-02 08:00:00 UTC). -/
def cNow : DateTime := ⟨2024, 1, 2, 8, 0, 0⟩

/-- A concrete article with no publication time. -/
def cArtN : Article := ⟨"cat", "src", "title", "http://x", "content", none, none⟩

/-- A concrete article dated `cDt`. -/
def cArtD : Article := ⟨"cat", "src", "title", "http://x", "content", some cDt, none⟩

/-- A concrete article dated exactly `datetime.min`. -/
def cArtMin : Article := ⟨"cat", "src", "title", "http://x", "content", some dtMin, none⟩

/-- An atom feed whose single entry has a 500-character author name and a
summary, used to exhibit the atom length-cap overflow. -/
def cexAtomFeed : Feed :=
  ⟨false, [⟨some "t", some "l", some "s", none,
    [⟨some (String.mk (List.replicate 500 'x'))⟩], some cDt, none, none⟩]⟩

/-- A small well-behaved feed with one entry. -/
def wFeed : Feed :=
  ⟨false, [⟨some "T", some "L", some "hello", none, [], some cDt, none, none⟩]⟩

/-- The article `fetch_rss` produces from `wFeed`. -/
def wRssArt : Article := ⟨"c", "n", "T", "L", "hello", some cDt, none⟩

/-- The article `fetch_scrape` produces from the page text `"page"`. -/
def wScrArt : Article := ⟨"c", "n", "n - Latest", "u", "page", some cNow, none⟩

/-! ### Helper lemmas -/

theorem mem_stableInsert (le : α → α → Bool) (a x : α) (l : List α) :
    x ∈ stableInsert le a l ↔ x = a ∨ x ∈ l := by
  induction l with
  | nil => simp [stableInsert]
  | cons b l ih =>
    by_cases h : le a b = true <;>
      simp [stableInsert, h, ih, List.mem_cons] <;> tauto

theorem stableInsert_perm (le : α → α → Bool) (a : α) (l : List α) :
    (stableInsert le a l).Perm (a :: l) := by
  induction l with
  | nil => exact List.Perm.refl _
  | cons b l ih =>
    by_cases h : le a b = true
    · simp [stableInsert, h]
    · simp only [stableInsert, h, if_neg, Bool.not_eq_true]
      exact ((ih.cons b).trans (List.Perm.swap a b l))

theorem stableSort_perm (le : α → α → Bool) (l : List α) :
    (stableSort le l).Perm l := by
  induction l with
  | nil => exact List.Perm.refl _
  | cons a l ih =>
    exact (stableInsert_perm le a (stableSort le l)).trans (ih.cons a)

theorem pairwise_stableInsert (le : α → α → Bool)
    (htot : ∀ x y, le x y = true ∨ le y x = true)
    (htr : ∀ x y z, le x y = true → le y z = true → le x z = true)
    (a : α) (l : List α) (h : l.Pairwise (fun x y => le x y = true)) :
    (stableInsert le a l).Pairwise (fun x y => le x y = true) := by
  induction l with
  | nil => simp [stableInsert]
  | cons b l ih =>
    rcases List.pairwise_cons.mp h with ⟨hb, hl⟩
    by_cases hab : le a b = true
    · simp only [stableInsert, hab, if_pos]
      refine List.pairwise_cons.mpr ⟨?_, h⟩
      intro x hx
      rcases List.mem_cons.mp hx with rfl | hx
      · exact hab
      · exact htr a b x hab (hb x hx)
    · have hba : le b a = true := (htot a b).resolve_left hab
      simp only [stableInsert, hab, if_neg, Bool.not_eq_true]
      refine List.pairwise_cons.mpr ⟨?_, ih hl⟩
      intro x hx
      rcases (mem_stableInsert le a x l).mp hx with rfl | hx
      · exact hba
      · exact hb x hx

theorem pairwise_stableSort (le : α → α → Bool)
    (htot : ∀ x y, le x y = true ∨ le y x = true)
    (htr : ∀ x y z, le x y = true → le y z = true → le x z = true)
    (l : List α) :
    (stableSort le l).Pairwise (fun x y => le x y = true) := by
  induction l with
  | nil => simp [stableSort]
  | cons a l ih => exact pairwise_stableInsert le htot htr a _ ih

theorem dtLe_iff (a b : DateTime) : dtLe a b = true ↔
    (a.year < b.year ∨ (a.year = b.year ∧
      (a.month < b.month ∨ (a.month = b.month ∧
        (a.day < b.day ∨ (a.day = b.day ∧
          (a.hour < b.hour ∨ (a.hour = b.hour ∧
            (a.minute < b.minute ∨ (a.minute = b.minute ∧
              a.second ≤ b.second)))))))))) := by
  unfold dtLe
  split_ifs <;> simp only [decide_eq_true_eq] <;> omega

theorem dtLe_total (a b : DateTime) : dtLe a b = true ∨ dtLe b a = true := by
  rw [dtLe_iff, dtLe_iff]
  omega

theorem dtLe_trans (a b c : DateTime) :
    dtLe a b = true → dtLe b c = true → dtLe a c = true := by
  rw [dtLe_iff, dtLe_iff, dtLe_iff]
  omega

theorem pyTake_length_le (s : String) (n : Nat) : (pyTake s n).length ≤ n := by
  show (s.toList.take n).length ≤ n
  simp [List.length_take]

theorem lookup_addToGroup (g : List (String × List Article)) (k k' : String) (a : Article) :
    (addToGroup g k' a).lookup k =
      if k = k' then some (((g.lookup k).getD []) ++ [a]) else g.lookup k := by
  induction g with
  | nil =>
    by_cases h : k = k'
    · have hb : (k == k') = true := beq_iff_eq.mpr h
      simp [addToGroup, List.lookup, hb, h]
    · have hb : (k == k') = false := beq_eq_false_iff_ne.mpr h
      simp [addToGroup, List.lookup, hb, h]
  | cons p g ih =>
    obtain ⟨k₁, v₁⟩ := p
    by_cases h2 : k = k₁
    · have hb : (k == k₁) = true := beq_iff_eq.mpr h2
      by_cases h1 : k₁ = k'
      · subst h1
        simp [addToGroup, List.lookup_cons, hb, h2]
      · have hkk : ¬ k = k' := h2 ▸ h1
        simp [addToGroup, h1, List.lookup_cons, hb, hkk]
    · have hb : (k == k₁) = false := beq_eq_false_iff_ne.mpr h2
      by_cases h1 : k₁ = k'
      · subst h1
        have hkk : ¬ k = k₁ := h2
        simp [addToGroup, List.lookup_cons, hb, hkk]
      · simp [addToGroup, h1, List.lookup_cons, hb, ih]

theorem lookup_group_fold (l : List Article) (g : List (String × List Article)) (k : String) :
    ((l.foldl (fun g a => addToGroup g (dateKey a) a) g).lookup k) =
      if (g.lookup k) = none ∧ (l.filter (fun a => dateKey a == k)) = []
      then none
      else some ((g.lookup k).getD [] ++ l.filter (fun a => dateKey a == k)) := by
  induction l generalizing g with
  | nil =>
    simp only [List.foldl_nil, List.filter_nil]
    cases h : g.lookup k <;> simp [h]
  | cons a l ih =>
    simp only [List.foldl_cons, List.filter_cons]
    rw [ih]
    by_cases hk : dateKey a = k
    · have hbeq : (dateKey a == k) = true := beq_iff_eq.mpr hk
      rw [lookup_addToGroup]
      simp only [if_pos hk.symm, hbeq, if_pos]
      cases h : g.lookup k <;> simp [h]
    · have hbeq : (dateKey a == k) = false := by
        simpa [beq_iff_eq] using hk
      rw [lookup_addToGroup]
      have : ¬ k = dateKey a := fun h => hk h.symm
      simp only [if_neg this, hbeq, Bool.false_eq_true, if_false]

theorem lookup_group (articles : List Article) (k : String) :
    (group_articles_by_date articles).lookup k =
      if (articles.filter (fun a => dateKey a == k)) = []
      then none
      else some (articles.filter (fun a => dateKey a == k)) := by
  have := lookup_group_fold articles [] k
  simpa [group_articles_by_date, List.lookup] using this

theorem takeWhile_append_all {p : α → Bool} {l₁ : List α} (l₂ : List α)
    (h : ∀ c ∈ l₁, p c = true) :
    (l₁ ++ l₂).takeWhile p = l₁ ++ l₂.takeWhile p := by
  induction l₁ with
  | nil => simp
  | cons c l₁ ih =>
    have hc : p c = true := h c (List.mem_cons_self c l₁)
    simp only [List.cons_append, List.takeWhile_cons, hc, if_pos]
    rw [ih (fun x hx => h x (List.mem_cons_of_mem c hx))]

theorem dropWhile_append_all {p : α → Bool} {l₁ : List α} (l₂ : List α)
    (h : ∀ c ∈ l₁, p c = true) :
    (l₁ ++ l₂).dropWhile p = l₂.dropWhile p := by
  induction l₁ with
  | nil => simp
  | cons c l₁ ih =>
    have hc : p c = true := h c (List.mem_cons_self c l₁)
    simp only [List.cons_append, List.dropWhile_cons, hc, if_pos]
    exact ih (fun x hx => h x (List.mem_cons_of_mem c hx))

theorem takeWhile_head_false {p : α → Bool} {l : List α}
    (h : ∀ c, l.head? = some c → p c = false) :
    l.takeWhile p = [] := by
  cases l with
  | nil => rfl
  | cons c l => simp [List.takeWhile_cons, h c rfl]

theorem dropWhile_head_false {p : α → Bool} {l : List α}
    (h : ∀ c, l.head? = some c → p c = false) :
    l.dropWhile p = l := by
  cases l with
  | nil => rfl
  | cons c l => simp [List.dropWhile_cons, h c rfl]

theorem sepChar_not_digit (c : Char) (h : isSepChar c = true) : c.isDigit = false := by
  simp only [isSepChar, isPySpace, Bool.or_eq_true, decide_eq_true_eq] at h
  rcases h with (h | h) | h
  · subst h; decide
  · subst h; decide
  · rcases h with ((((h | h) | h) | h) | h) | h <;> subst h <;> decide

theorem pyReplaceChar_eq_escPipe (cs : List Char) :
    pyReplaceChar '|' ['\\', '|'] cs = escPipe cs := by
  induction cs with
  | nil => rfl
  | cons c rest ih =>
    by_cases h : c = '|' <;> simp [pyReplaceChar, escPipe, h] at ih ⊢ <;> exact ih

theorem pyReplaceChar_no_occurrence (pat : Char) (rep : List Char) (cs : List Char)
    (h : ∀ c ∈ cs, c ≠ pat) : pyReplaceChar pat rep cs = cs := by
  induction cs with
  | nil => rfl
  | cons c rest ih =>
    have hc : ¬ c = pat := h c (List.mem_cons_self c rest)
    simp only [pyReplaceChar, hc, if_neg, if_false]
    rw [ih (fun x hx => h x (List.mem_cons_of_mem c hx))]

/-! ### Claim theorems -/

/-- C2: `is_today t now` is true if and only if `t` is present and its
UTC calendar date equals `now`'s UTC calendar date; it is false when `t`
is absent. -/
theorem C2_is_today_iff (t : Option DateTime) (now : DateTime) :
    is_today t now = true ↔ ∃ d, t = some d ∧ dateTriple d = dateTriple now := by
  cases t <;> simp [is_today]

/-- C4 counterexample: the batcher can raise past its own boundary.  For
a non-empty batch, a summarization call that returns a message with an
empty `content` list makes `message.content[0].text` raise an
`IndexError` inside the `try` block, and the `except anthropic.APIError`
clause does not catch it: the batch is not given sentinel summaries and
the exception escapes `generate_summaries`. -/
theorem C4_cex_uncaught_index_error :
    generate_summaries_call [cArtN, cArtD, cArtMin] (.message []) =
      .error "IndexError: list index out of range" := by
  rfl

/-- C4 (amended): any `anthropic.APIError` raised by the summarization
call (the base class of the SDK's connection, timeout and status errors)
is caught: every article of the batch gets the sentinel
`"Error generating summary"` and the batcher returns normally.  A
response carrying at least one content block is also handled normally.
But the batcher does not catch everything: on a non-empty batch, a
returned message with an empty `content` list raises an uncaught
`IndexError` past the batcher's boundary. -/
theorem C4_sentinel_and_uncaught_paths :
    (∀ (articles : List Article) (msg : String),
        generate_summaries_call articles (.apiError msg) =
          .ok (articles.map (fun a => { a with summary := some "Error generating summary" }))) ∧
    (∀ (articles : List Article) (response_text : String) (blocks : List String),
        generate_summaries_call articles (.message (response_text :: blocks)) =
          .ok (generate_summaries articles (.ok response_text))) ∧
    (∀ (a0 : Article) (rest : List Article),
        generate_summaries_call (a0 :: rest) (.message []) =
          .error "IndexError: list index out of range") := by
  refine ⟨?_, ?_, ?_⟩
  · intro articles msg
    cases articles <;> simp [generate_summaries_call, generate_summaries]
  · intro articles response_text blocks
    cases articles <;> simp [generate_summaries_call, generate_summaries]
  · intro a0 rest
    rfl

/-- C5: a source whose retrieval raises (on whichever channel its feed
type consults) contributes the empty list, and removing such a source
from the run leaves the concatenated output of all other sources
unchanged — one failing source never aborts the others. -/
theorem C5_source_isolation (pre post : List (SourceCfg × SourceEnv)) (cfg : SourceCfg)
    (e1 e2 : String) (fetch_all : Bool) (now : DateTime) :
    fetch_content ⟨.error e1, .error e2⟩ cfg fetch_all now = [] ∧
    processSources (pre ++ (cfg, ⟨.error e1, .error e2⟩) :: post) fetch_all now =
      processSources (pre ++ post) fetch_all now := by
  have h : fetch_content ⟨.error e1, .error e2⟩ cfg fetch_all now = [] := by
    simp only [fetch_content, fetch_rss, fetch_atom, fetch_podcast, fetch_scrape]
    split_ifs <;> rfl
  refine ⟨h, ?_⟩
  simp [processSources, List.flatMap_append, List.flatMap_cons, h]

/-- C6: the date bucketer maps key `k` to exactly the input-order
sublist of articles whose date key is `k` (absent when no article has
that key); the key of a dated article is its UTC date `YYYY-MM-DD`, and
the key of an undated article is the literal `"unknown"`. -/
theorem C6_group_by_date (articles : List Article) (k : String) :
    ((group_articles_by_date articles).lookup k =
      if (articles.filter (fun a => dateKey a == k)) = [] then none
      else some (articles.filter (fun a => dateKey a == k))) ∧
    (∀ a ∈ articles, ∀ t, a.pub_date = some t → dateKey a = fmtYMD t) ∧
    (∀ a ∈ articles, a.pub_date = none → dateKey a = "unknown") := by
  refine ⟨lookup_group articles k, ?_, ?_⟩
  · intro a _ t ht
    simp [dateKey, ht]
  · intro a _ h
    simp [dateKey, h]

/-- C6 witness: the theorem applied to a concrete two-article list. -/
theorem C6_group_by_date_witness :
    cArtD ∈ [cArtD, cArtN] ∧ cArtD.pub_date = some cDt ∧ dateKey cArtD = fmtYMD cDt ∧
    cArtN ∈ [cArtD, cArtN] ∧ cArtN.pub_date = none ∧ dateKey cArtN = "unknown" :=
  ⟨by decide, by decide,
   (C6_group_by_date [cArtD, cArtN] "unknown").2.1 cArtD (by decide) cDt (by decide),
   by decide, by decide,
   (C6_group_by_date [cArtD, cArtN] "unknown").2.2 cArtN (by decide) (by decide)⟩

/-- C8: pipe escaping in rendered rows: a string with no `|` is left
unchanged by `escape_markdown` (so a second application changes nothing),
every `|` is replaced by `\|` exactly once (character-level
characterization), and each rendered row applies `escape_markdown` to
the category, source, (truncated) title and summary fields. -/
theorem C8_escape_pipes :
    (∀ s : String, (∀ c ∈ s.toList, c ≠ '|') →
        escape_markdown s = s ∧ escape_markdown (escape_markdown s) = escape_markdown s) ∧
    (∀ s : String, (escape_markdown s).toList = escPipe s.toList) ∧
    (∀ a : Article, formatRow a =
      "| " ++ format_pub_date a.pub_date ++ " | " ++ escape_markdown a.category ++ " | " ++
      escape_markdown a.source ++ " | " ++
      escape_markdown (if a.title.length > 60 then pyTake a.title 60 ++ "..." else a.title) ++
      " | " ++ escape_markdown (a.summary.getD "N/A") ++ " | [Link](" ++ a.link ++ ") |") := by
  have hid : ∀ s : String, (∀ c ∈ s.toList, c ≠ '|') → escape_markdown s = s := by
    intro s h
    show String.mk (pyReplaceChar '|' ['\\', '|'] s.toList) = s
    rw [pyReplaceChar_no_occurrence _ _ _ h]
    rfl
  refine ⟨?_, ?_, ?_⟩
  · intro s h
    exact ⟨hid s h, congrArg escape_markdown (hid s h)⟩
  · intro s
    exact pyReplaceChar_eq_escPipe s.toList
  · intro a
    rfl

/-- C8 witness: the idempotence conjunct applied to a concrete
pipe-free string. -/
theorem C8_escape_pipes_witness :
    (∀ c ∈ "plain text".toList, c ≠ '|') ∧
    escape_markdown "plain text" = "plain text" ∧
    escape_markdown (escape_markdown "plain text") = escape_markdown "plain text" :=
  ⟨by decide, (C8_escape_pipes.1 "plain text" (by decide)).1,
   (C8_escape_pipes.1 "plain text" (by decide)).2⟩

/-- C9 counterexample: `write_briefing` does not leave the caller's list
unchanged — on a list whose undated article precedes a dated one, the
in-place sort reorders the caller's list. -/
theorem C9_cex_mutates_input :
    (write_briefing [cArtN, cArtD] "2024-01-01" cNow).2 ≠ [cArtN, cArtD] := by
  decide

/-- C9 (amended): the renderer's document is a pure function of the
input list, the date label and the clock; its only effect on the
caller's list is the in-place reordering into sorted order — the final
list is a permutation of the input and no article is added, removed or
modified. -/
theorem C9_renderer_effects (l : List Article) (d : String) (now : DateTime) :
    (write_briefing l d now).1 = briefingDoc (sortArticles l) d now ∧
    (write_briefing l d now).2 = sortArticles l ∧
    (write_briefing l d now).2.Perm l :=
  ⟨rfl, rfl, stableSort_perm _ l⟩

/-- C7 counterexample: an undated article does not always come after all
timestamped ones.  With an undated article first and an article dated
exactly `datetime.min` second, both sort keys are equal, the stable sort
keeps the input order, and the undated article precedes a timestamped
one in the rendered row order. -/
theorem C7_cex_none_not_last :
    cArtMin.pub_date.isSome = true ∧
    ¬ noneLastOk (write_briefing [cArtN, cArtMin] "d" cNow).2 := by
  constructor
  · decide
  · unfold noneLastOk
    decide

/-- C7 (amended): rendered rows are ordered by publication time
descending (undated items carrying the key `datetime.min`), the row
multiset is the input multiset, and — provided no timestamped item is
dated exactly `datetime.min` (its time is strictly above the minimum) —
every undated item appears after all timestamped items. -/
theorem C7_sorted_desc (l : List Article) (d : String) (now : DateTime)
    (h : ∀ a ∈ l, a.pub_date.all (fun t => !dtLe t dtMin) = true) :
    (write_briefing l d now).2.Perm l ∧
    (write_briefing l d now).2.Pairwise (fun a b => dtLe (sortKey b) (sortKey a) = true) ∧
    noneLastOk (write_briefing l d now).2 := by
  have hperm : (sortArticles l).Perm l := stableSort_perm _ l
  have hpw : (sortArticles l).Pairwise (fun a b => dtLe (sortKey b) (sortKey a) = true) :=
    pairwise_stableSort _
      (fun x y => (dtLe_total (sortKey y) (sortKey x)))
      (fun x y z hxy hyz => dtLe_trans (sortKey z) (sortKey y) (sortKey x) hyz hxy)
      l
  refine ⟨hperm, hpw, hpw.imp_of_mem ?_⟩
  intro a b _ hb hrel hnone
  cases hb' : b.pub_date with
  | none => rfl
  | some t =>
    have hbl : b ∈ l := hperm.mem_iff.mp hb
    have hbad : (!dtLe t dtMin) = true := by
      have := h b hbl
      rw [hb'] at this
      simpa [Option.all] using this
    have hka : sortKey a = dtMin := by simp [sortKey, hnone]
    have hkb : sortKey b = t := by simp [sortKey, hb']
    rw [hka, hkb] at hrel
    rw [hrel] at hbad
    simp at hbad

/-- C7 witness: the amended theorem applied to a concrete list with one
dated and one undated article. -/
theorem C7_sorted_desc_witness :
    (∀ a ∈ [cArtD, cArtN], a.pub_date.all (fun t => !dtLe t dtMin) = true) ∧
    ((write_briefing [cArtD, cArtN] "d" cNow).2.Perm [cArtD, cArtN] ∧
     (write_briefing [cArtD, cArtN] "d" cNow).2.Pairwise
       (fun a b => dtLe (sortKey b) (sortKey a) = true) ∧
     noneLastOk (write_briefing [cArtD, cArtN] "d" cNow).2) :=
  ⟨by decide, C7_sorted_desc [cArtD, cArtN] "d" cNow (by decide)⟩

/-- C1 counterexample: an atom item can exceed the 500-character cap,
because the author prefix is prepended after the summary is truncated —
here a 500-character author name yields a 512-character `raw_content`. -/
theorem C1_cex_atom_over_cap :
    ∃ a ∈ fetch_atom (.ok cexAtomFeed) "u" "c" "n" 50 true cNow,
      500 < a.raw_content.length := by
  decide

/-- C1 (amended): rss and podcast items are capped at 500 characters and
scraped items at 800, before any further processing; an atom item is an
author tag (empty, or `"Authors: <names>. "`, of unbounded length)
followed by a summary capped at 500 characters — so authorless atom
items are capped at 500, but atom items with authors may exceed it. -/
theorem C1_content_caps :
    (∀ res url c n mi fa now, ∀ a ∈ fetch_rss res url c n mi fa now,
        a.raw_content.length ≤ 500) ∧
    (∀ res url c n mi fa now, ∀ a ∈ fetch_podcast res url c n mi fa now,
        a.raw_content.length ≤ 500) ∧
    (∀ res url c n now, ∀ a ∈ fetch_scrape res url c n now,
        a.raw_content.length ≤ 800) ∧
    (∀ res url c n mi fa now, ∀ a ∈ fetch_atom res url c n mi fa now,
        ∃ tag core, a.raw_content = tag ++ core ∧ core.length ≤ 500 ∧
          (tag = "" ∨ ∃ names, tag = "Authors: " ++ names ++ ". ")) := by
  refine ⟨?_, ?_, ?_, ?_⟩
  · intro res url c n mi fa now a ha
    cases res with
    | error e => simp [fetch_rss] at ha
    | ok feed =>
      simp only [fetch_rss] at ha
      split at ha
      · simp at ha
      · rw [List.mem_filterMap] at ha
        obtain ⟨e, -, hfe⟩ := ha
        split at hfe
        · simp at hfe
        · injection hfe with h
          rw [← h]
          exact pyTake_length_le _ _
  · intro res url c n mi fa now a ha
    cases res with
    | error e => simp [fetch_podcast] at ha
    | ok feed =>
      simp only [fetch_podcast] at ha
      rw [List.mem_filterMap] at ha
      obtain ⟨e, -, hfe⟩ := ha
      split at hfe
      · simp at hfe
      · injection hfe with h
        rw [← h]
        exact pyTake_length_le _ _
  · intro res url c n now a ha
    cases res with
    | error e => simp [fetch_scrape] at ha
    | ok page =>
      match page with
      | none => simp [fetch_scrape] at ha
      | some none => simp [fetch_scrape] at ha
      | some (some text) =>
        simp only [fetch_scrape, List.mem_singleton] at ha
        rw [ha]
        exact pyTake_length_le _ _
  · intro res url c n mi fa now a ha
    cases res with
    | error e => simp [fetch_atom] at ha
    | ok feed =>
      simp only [fetch_atom] at ha
      rw [List.mem_filterMap] at ha
      obtain ⟨e, -, hfe⟩ := ha
      split at hfe
      · simp at hfe
      · injection hfe with h
        by_cases hau : joinAuthors e.authors = ""
        · refine ⟨"", pyTake (clean_html (e.summary.getD "")) 500, ?_,
            pyTake_length_le _ _, Or.inl rfl⟩
          rw [← h]
          show (if joinAuthors e.authors ≠ "" then
              "Authors: " ++ joinAuthors e.authors ++ ". " ++
                pyTake (clean_html (e.summary.getD "")) 500
            else pyTake (clean_html (e.summary.getD "")) 500) =
            "" ++ pyTake (clean_html (e.summary.getD "")) 500
          rw [if_neg (by simpa using hau)]
          rfl
        · refine ⟨"Authors: " ++ joinAuthors e.authors ++ ". ",
            pyTake (clean_html (e.summary.getD "")) 500, ?_,
            pyTake_length_le _ _, Or.inr ⟨joinAuthors e.authors, rfl⟩⟩
          rw [← h]
          show (if joinAuthors e.authors ≠ "" then
              "Authors: " ++ joinAuthors e.authors ++ ". " ++
                pyTake (clean_html (e.summary.getD "")) 500
            else pyTake (clean_html (e.summary.getD "")) 500) =
            "Authors: " ++ joinAuthors e.authors ++ ". " ++
              pyTake (clean_html (e.summary.getD "")) 500
          rw [if_pos hau]

/-- C1 witness: the cap conjuncts applied to concrete fetch results. -/
theorem C1_content_caps_witness :
    wRssArt ∈ fetch_rss (.ok wFeed) "u" "c" "n" 50 true cNow ∧
    wRssArt.raw_content.length ≤ 500 ∧
    wRssArt ∈ fetch_podcast (.ok wFeed) "u" "c" "n" 50 true cNow ∧
    wScrArt ∈ fetch_scrape (.ok (some (some "page"))) "u" "c" "n" cNow ∧
    wScrArt.raw_content.length ≤ 800 ∧
    wRssArt ∈ fetch_atom (.ok wFeed) "u" "c" "n" 50 true cNow ∧
    (∃ tag core, wRssArt.raw_content = tag ++ core ∧ core.length ≤ 500 ∧
      (tag = "" ∨ ∃ names, tag = "Authors: " ++ names ++ ". ")) :=
  ⟨by decide,
   C1_content_caps.1 (.ok wFeed) "u" "c" "n" 50 true cNow wRssArt (by decide),
   by decide,
   by decide,
   C1_content_caps.2.2.1 (.ok (some (some "page"))) "u" "c" "n" cNow wScrArt (by decide),
   by decide,
   C1_content_caps.2.2.2 (.ok wFeed) "u" "c" "n" 50 true cNow wRssArt (by decide)⟩

/-- C3: the tolerant line pattern accepts `<digits><separators><text>`
for any non-empty digit run, any non-empty run of `.`/`)`/whitespace
separators and any non-empty text not starting with a separator,
yielding the numeric index and the text; and on a successful response
every article at 0-based position `i` receives the parsed summary for
index `i+1`, with the sentinel `"Summary unavailable"` when that index
is absent from the parsed map. -/
theorem C3_parse_and_assign :
    (∀ (ds sp t : List Char),
        ds ≠ [] → (∀ c ∈ ds, c.isDigit = true) →
        sp ≠ [] → (∀ c ∈ sp, isSepChar c = true) →
        t ≠ [] → t.head?.all (fun c => !isSepChar c) = true →
        parseNumberedLine (ds ++ sp ++ t) = some (digitsToNat ds, t)) ∧
    (∀ (articles : List Article) (resp : String) (i : Nat), i < articles.length →
        ((generate_summaries articles (.ok resp)).map Article.summary)[i]? =
          some (some (((parseSummaries resp).lookup (i + 1)).getD "Summary unavailable"))) := by
  constructor
  · intro ds sp t hds hdig hsp hsep ht hth
    have hth' : ∀ c, t.head? = some c → isSepChar c = false := by
      intro c hc
      rw [hc] at hth
      simpa using hth
    have hnd : ∀ c, (sp ++ t).head? = some c → c.isDigit = false := by
      intro c hc
      cases sp with
      | nil => exact absurd rfl hsp
      | cons s sp' =>
        simp only [List.cons_append, List.head?_cons, Option.some.injEq] at hc
        subst hc
        exact sepChar_not_digit _ (hsep _ (List.mem_cons_self _ _))
    have h1 : (ds ++ (sp ++ t)).takeWhile Char.isDigit = ds := by
      rw [takeWhile_append_all _ hdig, takeWhile_head_false hnd, List.append_nil]
    have h2 : (ds ++ (sp ++ t)).dropWhile Char.isDigit = sp ++ t := by
      rw [dropWhile_append_all _ hdig, dropWhile_head_false hnd]
    have h3 : (sp ++ t).takeWhile isSepChar = sp := by
      rw [takeWhile_append_all _ hsep, takeWhile_head_false hth', List.append_nil]
    have h4 : (sp ++ t).dropWhile isSepChar = t := by
      rw [dropWhile_append_all _ hsep, dropWhile_head_false hth']
    have hdse : ds.isEmpty = false := by
      cases ds
      · exact absurd rfl hds
      · rfl
    have hspe : sp.isEmpty = false := by
      cases sp
      · exact absurd rfl hsp
      · rfl
    have hte : t.isEmpty = false := by
      cases t
      · exact absurd rfl ht
      · rfl
    rw [List.append_assoc]
    simp only [parseNumberedLine, h1, h2, h3, h4, hdse, hspe, hte]
    simp
  · intro articles resp i hi
    cases articles with
    | nil => simp at hi
    | cons a0 rest =>
      simp only [generate_summaries, List.isEmpty_cons, Bool.false_eq_true, if_false,
        List.map_map]
      rw [List.getElem?_map, List.getElem?_enum, List.getElem?_eq_getElem hi]
      simp

/-- C3 witness: the line form and assignment conjuncts applied to
concrete inputs. -/
theorem C3_parse_and_assign_witness :
    parseNumberedLine (['2'] ++ ['.', ' '] ++ ['o', 'k']) = some (digitsToNat ['2'], ['o', 'k']) ∧
    ((generate_summaries [cArtN] (.ok "1. fine")).map Article.summary)[0]? =
      some (some (((parseSummaries "1. fine").lookup (0 + 1)).getD "Summary unavailable")) :=
  ⟨C3_parse_and_assign.1 ['2'] ['.', ' '] ['o', 'k'] (by decide) (by decide) (by decide)
     (by decide) (by decide) (by decide),
   C3_parse_and_assign.2 [cArtN] "1. fine" 0 (by decide)⟩

theorem mem_writeAllBriefings (articles : List Article) (now : DateTime)
    (e : String × String × List Article) (he : e ∈ writeAllBriefings articles now) :
    e.1 ≠ "unknown" ∧
    e.2.2 = sortArticles (articles.filter (fun x => dateKey x == e.1)) := by
  simp only [writeAllBriefings, List.mem_filterMap] at he
  obtain ⟨d, hd, hfd⟩ := he
  by_cases hu : d = "unknown"
  · rw [if_pos hu] at hfd
    exact absurd hfd (by simp)
  · rw [if_neg hu] at hfd
    cases hl : (group_articles_by_date articles).lookup d with
    | none =>
      rw [hl] at hfd
      simp at hfd
    | some arts =>
      rw [hl] at hfd
      simp only [Option.some.injEq] at hfd
      have harts : arts = articles.filter (fun x => dateKey x == d) := by
        rw [lookup_group] at hl
        by_cases hf : articles.filter (fun x => dateKey x == d) = []
        · rw [if_pos hf] at hl
          exact absurd hl (by simp)
        · rw [if_neg hf] at hl
          exact (Option.some.inj hl).symm
      constructor
      · rw [← hfd]
        exact hu
      · rw [← hfd]
        show (write_briefing arts d now).2 = sortArticles (articles.filter (fun x => dateKey x == d))
        rw [harts]
        rfl

/-- C10: every undated article lands in the `"unknown"` bucket; in
fetch-all mode no briefing is emitted for the `"unknown"` key; and no
article appearing in any emitted briefing is undated — so undated items
appear in no output file. -/
theorem C10_unknown_bucket_skipped (articles : List Article) (now : DateTime) :
    (∀ a ∈ articles, a.pub_date = none →
      a ∈ ((group_articles_by_date articles).lookup "unknown").getD []) ∧
    (∀ e ∈ writeAllBriefings articles now, e.1 ≠ "unknown") ∧
    (∀ e ∈ writeAllBriefings articles now, ∀ a ∈ e.2.2, a.pub_date ≠ none) := by
  refine ⟨?_, ?_, ?_⟩
  · intro a ha hnone
    rw [lookup_group]
    have hkey : dateKey a = "unknown" := by simp [dateKey, hnone]
    have hmem : a ∈ articles.filter (fun x => dateKey x == "unknown") :=
      List.mem_filter.mpr ⟨ha, by simp [hkey]⟩
    rw [if_neg (List.ne_nil_of_mem hmem)]
    simpa using hmem
  · intro e he
    exact (mem_writeAllBriefings articles now e he).1
  · intro e he a hae
    obtain ⟨hne, heq⟩ := mem_writeAllBriefings articles now e he
    rw [heq] at hae
    have hmem : a ∈ articles.filter (fun x => dateKey x == e.1) :=
      (stableSort_perm _ _).mem_iff.mp hae
    have hkey : dateKey a = e.1 := beq_iff_eq.mp (List.mem_filter.mp hmem).2
    intro hnone
    apply hne
    rw [← hkey]
    simp [dateKey, hnone]

/-- C10 witness: the three conjuncts applied to a concrete run with one
undated and one dated article. -/
theorem C10_unknown_bucket_skipped_witness :
    cArtN ∈ [cArtN, cArtD] ∧ cArtN.pub_date = none ∧
    cArtN ∈ ((group_articles_by_date [cArtN, cArtD]).lookup "unknown").getD [] ∧
    ((("2024-01-01" : String), write_briefing [cArtD] "2024-01-01" cNow) ∈
      writeAllBriefings [cArtN, cArtD] cNow) ∧
    (("2024-01-01" : String), write_briefing [cArtD] "2024-01-01" cNow).1 ≠ "unknown" :=
  ⟨by decide, by decide,
   (C10_unknown_bucket_skipped [cArtN, cArtD] cNow).1 cArtN (by decide) (by decide),
   by decide,
   (C10_unknown_bucket_skipped [cArtN, cArtD] cNow).2.1 _ (by decide)⟩
